import Mathlib

/-!
# ShoeStore: a shallow embedding of `src/pages/prediction/ShoeStore.js`

The React component keeps a list of shoes (`shoes`), a name-to-document-id map
(`window.shoeDocs`) and a history of past views (`pastViews`) in step with two
Firestore collections (`shoes`, `shoeViews`).  Every asynchronous handler of the
component is embedded as a function on a `World` (component state, the global
`window.shoeDocs`, the console, the log of remote calls and the remote collections);
the result of each awaited remote call is an explicit argument of the handler.
`loadShoes` has one call site, the effect that runs when the component mounts: `mount`
embeds it, with the `useState` cells at their defaults and everything outside the
component (`window.shoeDocs`, the collections) as the previous mount left it.

JavaScript built-ins the handlers rely on (`String.prototype.trim`, `parseFloat`,
`isNaN`, `Map`, `Array.prototype.sort`, `Date`) are modelled first.
-/

namespace ShoeStore

/-! ## JavaScript numbers -/

/-- A JavaScript Number: `NaN`, an infinity, or a finite binary64 value
`(-1)^neg * mant * 2^exp`. -/
inductive JSNumber where
  | nan
  | inf (neg : Bool)
  | fin (neg : Bool) (mant : Nat) (exp : Int)
  deriving DecidableEq, Repr

/-- The global `isNaN` on a Number. -/
def isNaN : JSNumber → Bool
  | .nan => true
  | _ => false

/-- The comparison `x <= 0` on a Number (`false` for `NaN`; `-0 <= 0` holds). -/
def leZero : JSNumber → Bool
  | .nan => false
  | .inf neg => neg
  | .fin neg mant _ => neg || mant == 0

/-- The global `isFinite` on a Number. -/
def isFinite : JSNumber → Bool
  | .fin _ _ _ => true
  | _ => false

/-- Number of binary digits of `n` (`0` for `0`); `fuel` bounds the halvings. -/
def bitLengthAux : Nat → Nat → Nat
  | 0, _ => 0
  | fuel + 1, n => if n = 0 then 0 else bitLengthAux fuel (n / 2) + 1

/-- Number of binary digits of `n`: `floor (log2 n) + 1` for positive `n`. -/
def bitLength (n : Nat) : Nat := bitLengthAux n n

/-- Rounds the positive rational `num / den` to the nearest binary64 value, ties to
even, with gradual underflow and overflow to infinity. -/
def roundToDouble (neg : Bool) (num den : Nat) : JSNumber :=
  if num = 0 ∨ den = 0 then .fin neg 0 0
  else
    let l : Int := (bitLength num : Int) - (bitLength den : Int)
    -- `scaled e` is `floor (num / (den * 2^e))`
    let scaled : Int → Nat := fun e =>
      if 0 ≤ e then num / (den * 2 ^ e.toNat) else (num * 2 ^ (-e).toNat) / den
    let e0 : Int := if 2 ^ 52 ≤ scaled (l - 52) then l - 52 else l - 53
    let e : Int := if e0 < -1074 then -1074 else e0
    let a : Nat := if 0 ≤ e then num else num * 2 ^ (-e).toNat
    let b : Nat := if 0 ≤ e then den * 2 ^ e.toNat else den
    let q := a / b
    let r := a % b
    let m := if b < 2 * r ∨ (2 * r = b ∧ q % 2 = 1) then q + 1 else q
    let m1 := if m = 2 ^ 53 then 2 ^ 52 else m
    let e1 : Int := if m = 2 ^ 53 then e + 1 else e
    if 971 < e1 then .inf neg else .fin neg m1 e1

/-! ## JavaScript strings -/

/-- White space and line terminators of ECMAScript (`WhiteSpace`, `LineTerminator`),
the characters removed by `trim` and skipped by `parseFloat`. -/
def isJSWhiteSpace (c : Char) : Bool :=
  let n := c.toNat
  n == 0x09 || n == 0x0A || n == 0x0B || n == 0x0C || n == 0x0D || n == 0x20 ||
  n == 0xA0 || n == 0x1680 || (0x2000 ≤ n && n ≤ 0x200A) || n == 0x2028 ||
  n == 0x2029 || n == 0x202F || n == 0x205F || n == 0x3000 || n == 0xFEFF

/-- The method `String.prototype.trim` on the characters of a string. -/
def trimChars (cs : List Char) : List Char :=
  ((cs.dropWhile isJSWhiteSpace).reverse.dropWhile isJSWhiteSpace).reverse

/-- The method `String.prototype.trim`. -/
def jsTrim (s : String) : String :=
  String.mk (trimChars s.data)

/-- Value of a decimal digit character, if it is one. -/
def digitVal (c : Char) : Option Nat :=
  if 48 ≤ c.toNat ∧ c.toNat ≤ 57 then some (c.toNat - 48) else none

/-- Reads `DecimalDigits_opt`: the digits read (most significant first) and the rest. -/
def takeDigits : List Char → List Nat × List Char
  | [] => ([], [])
  | c :: cs =>
    match digitVal c with
    | some d => let r := takeDigits cs; (d :: r.1, r.2)
    | none => ([], c :: cs)

/-- Numeric value of a digit sequence. -/
def digitsValue (ds : List Nat) : Nat :=
  ds.foldl (fun acc d => 10 * acc + d) 0

/-- Reads `ExponentPart_opt`: the exponent when `e`/`E`, an optional sign and at least
one digit follow, and `0` otherwise (the longest valid prefix then stops before `e`). -/
def takeExponent : List Char → Int
  | c :: cs =>
    if c = 'e' ∨ c = 'E' then
      match cs with
      | '-' :: ds =>
        let r := takeDigits ds
        if r.1 = [] then 0 else -(digitsValue r.1 : Int)
      | '+' :: ds =>
        let r := takeDigits ds
        if r.1 = [] then 0 else (digitsValue r.1 : Int)
      | ds =>
        let r := takeDigits ds
        if r.1 = [] then 0 else (digitsValue r.1 : Int)
    else 0
  | [] => 0

/-- Reads the longest prefix that is a `StrUnsignedDecimalLiteral` and returns its
Number value; `NaN` when there is no such prefix. -/
def parseUnsigned (neg : Bool) (cs : List Char) : JSNumber :=
  if "Infinity".data.isPrefixOf cs then .inf neg
  else
    let ip := takeDigits cs
    let fp : List Nat × List Char :=
      match ip.2 with
      | '.' :: rest => takeDigits rest
      | rest => ([], rest)
    if ip.1 = [] ∧ fp.1 = [] then .nan
    else
      let e10 : Int := takeExponent fp.2 - (fp.1.length : Int)
      let n := digitsValue (ip.1 ++ fp.1)
      if 0 ≤ e10 then roundToDouble neg (n * 10 ^ e10.toNat) 1
      else roundToDouble neg n (10 ^ (-e10).toNat)

/-- The global `parseFloat` applied to a string: leading white space is skipped, the
longest prefix that is a `StrDecimalLiteral` is converted, anything else is `NaN`. -/
def parseFloatString (s : String) : JSNumber :=
  match s.data.dropWhile isJSWhiteSpace with
  | '-' :: cs => parseUnsigned true cs
  | '+' :: cs => parseUnsigned false cs
  | cs => parseUnsigned false cs

/-- A JavaScript value as found in a field of a Firestore document. -/
inductive JSValue where
  | undefined
  | null
  | bool (b : Bool)
  | num (x : JSNumber)
  | str (s : String)
  deriving DecidableEq, Repr

/-- The global `parseFloat`: the argument is converted to a string and parsed.
`undefined`, `null` and booleans print as words that start no numeric literal.  A
Number prints (`Number::toString`) as the shortest literal that reads back as the
same Number, so the Number itself comes back, `-0` (printed `"0"`) as `+0`. -/
def parseFloat : JSValue → JSNumber
  | .str s => parseFloatString s
  | .num (.fin _ 0 e) => .fin false 0 e
  | .num x => x
  | _ => .nan

/-! ## `Map`, as used for `window.shoeDocs` -/

/-- A JavaScript `Map` from strings to strings: its entries in insertion order. -/
abbrev JSMap := List (String × String)

/-- The method `Map.prototype.get`: the value stored under `k`, if any. -/
def mapGet : JSMap → String → Option String
  | [], _ => none
  | (k', v) :: rest, k => if k' = k then some v else mapGet rest k

/-- The method `Map.prototype.has`. -/
def mapHas (m : JSMap) (k : String) : Bool :=
  (mapGet m k).isSome

/-- The method `Map.prototype.set`: an existing key keeps its place and takes the new value, a new
key is appended. -/
def mapSet : JSMap → String → String → JSMap
  | [], k, v => [(k, v)]
  | (k', v') :: rest, k, v => if k' = k then (k, v) :: rest else (k', v') :: mapSet rest k v

/-- The method `Map.prototype.delete`. -/
def mapDelete (m : JSMap) (k : String) : JSMap :=
  m.filter (fun e => e.1 ≠ k)

/-! ## Dates -/

/-- A Firestore `Timestamp`. -/
structure Timestamp where
  seconds : Int
  nanoseconds : Nat
  deriving DecidableEq, Repr

/-- The method `Timestamp.fromDate`, the conversion Firestore applies to a `Date` (given by its
time value in milliseconds) that is written to a document. -/
def Timestamp.fromMillis (ms : Int) : Timestamp :=
  { seconds := ms / 1000, nanoseconds := (ms % 1000).toNat * 1000000 }

/-- The method `Timestamp.prototype.toDate`: the time value, in milliseconds, of the `Date`. -/
def Timestamp.toDate (t : Timestamp) : Int :=
  t.seconds * 1000 + (t.nanoseconds / 1000000 : Nat)

/-- The two locale-dependent operations on dates that `loadPastViews` uses. -/
structure DateEnv where
  /-- Result of `Date.prototype.toLocaleString` for the `Date` with the given time value. -/
  toLocaleString : Int → String
  /-- Time value of `new Date(string)`; `none` for an invalid date (its value is `NaN`). -/
  dateParse : String → Option Int

/-- Civil date `(year, month, day)` of a day number counted from 1970-01-01. -/
def civilFromDays (days : Int) : Int × Int × Int :=
  let z := days + 719468
  let era := z / 146097
  let doe := z - era * 146097
  let yoe := (doe - doe / 1460 + doe / 36524 - doe / 146096) / 365
  let doy := doe - (365 * yoe + yoe / 4 - yoe / 100)
  let mp := (5 * doy + 2) / 153
  let d := doy - (153 * mp + 2) / 5 + 1
  let m := if mp < 10 then mp + 3 else mp - 9
  let y := yoe + era * 400
  (if m ≤ 2 then y + 1 else y, m, d)

/-- Day number, counted from 1970-01-01, of a civil date. -/
def daysFromCivil (y m d : Int) : Int :=
  let y1 := if m ≤ 2 then y - 1 else y
  let era := y1 / 400
  let yoe := y1 - era * 400
  let doy := (153 * (if 2 < m then m - 3 else m + 9) + 2) / 5 + d - 1
  let doe := yoe * 365 + yoe / 4 - yoe / 100 + doy
  era * 146097 + doe - 719468

/-- Decimal digits of a number, padded with a leading zero to two places. -/
def twoDigits (n : Nat) : String :=
  if n < 10 then "0" ++ Nat.repr n else Nat.repr n

/-- The method `Date.prototype.toLocaleString` in the locale `en-US` and the time zone UTC, for
dates of the common era: `month/day/year, hour:minute:second AM|PM`.  Like the default
format of every locale, it shows the time to the second. -/
def toLocaleStringEnUS (ms : Int) : String :=
  let date := civilFromDays (ms / 86400000)
  let secs := ((ms % 86400000) / 1000).toNat
  let h := secs / 3600
  let h12 := if h % 12 = 0 then 12 else h % 12
  Nat.repr date.2.1.toNat ++ "/" ++ Nat.repr date.2.2.toNat ++ "/" ++ Nat.repr date.1.toNat ++
    ", " ++ Nat.repr h12 ++ ":" ++ twoDigits (secs / 60 % 60) ++ ":" ++ twoDigits (secs % 60) ++
    (if h < 12 then " AM" else " PM")

/-- Reads a number and the separator that must follow it. -/
def takeNumber (sep : List Char) (cs : List Char) : Option (Nat × List Char) :=
  let r := takeDigits cs
  if r.1 = [] ∨ ¬ sep.isPrefixOf r.2 then none
  else some (digitsValue r.1, r.2.drop sep.length)

/-- Time value of `new Date(string)` for a string in the format of `toLocaleStringEnUS`,
read in the time zone UTC; any other string gives an invalid date. -/
def dateParseEnUS (s : String) : Option Int :=
  match takeNumber ['/'] s.data with
  | none => none
  | some (month, r1) =>
  match takeNumber ['/'] r1 with
  | none => none
  | some (day, r2) =>
  match takeNumber [',', ' '] r2 with
  | none => none
  | some (year, r3) =>
  match takeNumber [':'] r3 with
  | none => none
  | some (h12, r4) =>
  match takeNumber [':'] r4 with
  | none => none
  | some (minute, r5) =>
  match takeNumber [' '] r5 with
  | none => none
  | some (second, r6) =>
    if month < 1 ∨ 12 < month ∨ day < 1 ∨ 31 < day ∨ h12 < 1 ∨ 12 < h12 ∨ 59 < minute ∨
        59 < second then none
    else
      let base : Int := daysFromCivil year month day * 86400000 + minute * 60000 + second * 1000
      if r6 = ['A', 'M'] then some (base + (h12 % 12 : Nat) * 3600000)
      else if r6 = ['P', 'M'] then some (base + (h12 % 12 + 12 : Nat) * 3600000)
      else none

/-- The locale `en-US` in the time zone UTC. -/
def enUS : DateEnv :=
  { toLocaleString := toLocaleStringEnUS, dateParse := dateParseEnUS }

/-! ## `Array.prototype.sort` -/

/-- Inserts `x` into a list sorted for the comparator `cmp`: `x` goes before the first
`y` for which `cmp x y` is not positive (a `NaN` result, `none`, counts as `0`). -/
def sortInsert {α : Type} (cmp : α → α → Option Int) (x : α) : List α → List α
  | [] => [x]
  | y :: ys =>
    match cmp x y with
    | some v => if 0 < v then y :: sortInsert cmp x ys else x :: y :: ys
    | none => x :: y :: ys

/-- The method `Array.prototype.sort(cmp)`: a stable sort; `a` comes before `b` when `cmp a b < 0`. -/
def jsSort {α : Type} (cmp : α → α → Option Int) : List α → List α
  | [] => []
  | x :: xs => sortInsert cmp x (jsSort cmp xs)

/-! ## Data -/

/-- An element of the `shoes` state: `{ name, price }`. -/
structure Shoe where
  name : String
  price : JSNumber
  deriving DecidableEq, Repr

/-- A document of the `shoes` collection as a query returns it: `docSnap.id` and the
fields of `docSnap.data()`. -/
structure ShoeDoc where
  id : String
  userId : String
  shoeName : String
  price : JSValue
  timestamp : Timestamp
  deriving DecidableEq, Repr

/-- A document of the `shoeViews` collection as a query returns it. -/
structure ViewDoc where
  id : String
  userId : String
  shoeName : String
  details : String
  timestamp : Timestamp
  deriving DecidableEq, Repr

/-- An element of the `pastViews` state. -/
structure PastView where
  id : String
  shoeName : String
  details : String
  timestamp : String
  deriving DecidableEq, Repr

/-- What a `catch` block receives. -/
inductive Thrown where
  /-- Rejection of a remote call, with its message. -/
  | rejected (message : String)
  /-- A member access on `undefined`. -/
  | typeError
  /-- The `new Error(message)` thrown by the component itself. -/
  | error (message : String)
  deriving DecidableEq, Repr

/-- A line written to the console. -/
inductive LogEntry where
  | error (label : String) (thrown : Thrown)
  | warn (label : String) (doc : ShoeDoc)
  deriving DecidableEq, Repr

/-- A call that leaves the component: Firestore reads and writes, and the request to
`/api/shoes`. -/
inductive Call where
  | getDocs (collection : String) (userId : String)
  | addShoeDoc (userId shoeName : String) (price : JSNumber) (timestamp : Int)
  | addViewDoc (userId shoeName details : String) (timestamp : Int)
  | deleteDoc (collection : String) (id : String)
  | fetch (shoes : List Shoe) (userId : Option String)
  deriving DecidableEq, Repr

/-- Outcome of the request to `/api/shoes`: `fetch` or `res.json()` rejects, or the
body is an object whose `error` and `details` fields are strings or absent. -/
inductive ApiResult where
  | threw (message : String)
  | json (error : Option String) (details : Option String)
  deriving DecidableEq, Repr

/-- Truthiness of an optional string field: present and not empty. -/
def truthy : Option String → Bool
  | some s => s ≠ ""
  | none => false

/-- The component state (`useState` cells), the global `window.shoeDocs` (`none` while
it is `undefined`), the console, the calls issued so far, and the two Firestore
collections. -/
structure World where
  shoeName : String
  shoePrice : String
  shoes : List Shoe
  shoeDetails : String
  loading : Bool
  userId : Option String
  pastViews : List PastView
  error : String
  shoeDocs : Option JSMap
  console : List LogEntry
  calls : List Call
  shoesColl : List ShoeDoc
  viewsColl : List ViewDoc
  deriving DecidableEq, Repr

/-- The component right after mounting, before sign-in answers: every state cell at its
`useState` default, `window.shoeDocs` undefined, both collections empty. -/
def World.initial : World :=
  { shoeName := "", shoePrice := "", shoes := [], shoeDetails := "", loading := false,
    userId := none, pastViews := [], error := "", shoeDocs := none, console := [],
    calls := [], shoesColl := [], viewsColl := [] }

/-! ## The handlers -/

/-- Loop state of the `forEach` in `loadShoes`. -/
structure LoadAcc where
  loadedShoes : List Shoe
  shoeDocs : JSMap
  warnings : List LogEntry
  deriving DecidableEq, Repr

/-- Body of the `forEach` in `loadShoes`. -/
def loadShoesStep (acc : LoadAcc) (docSnap : ShoeDoc) : LoadAcc :=
  let price := parseFloat docSnap.price
  if isNaN price = false then
    { acc with
      loadedShoes := acc.loadedShoes ++ [Shoe.mk docSnap.shoeName price]
      shoeDocs := mapSet acc.shoeDocs docSnap.shoeName docSnap.id }
  else
    { acc with warnings := acc.warnings ++ [LogEntry.warn "Invalid shoe price:" docSnap] }

/-- The handler `loadShoes(uid)`; `res` is the outcome of `getDocs`. -/
def loadShoes (uid : String) (res : Except String (List ShoeDoc)) (w : World) : World :=
  let w := { w with calls := w.calls ++ [Call.getDocs "shoes" uid] }
  match res with
  | .ok querySnapshot =>
    let acc := querySnapshot.foldl loadShoesStep { loadedShoes := [], shoeDocs := [], warnings := [] }
    { w with
      console := w.console ++ acc.warnings
      shoes := acc.loadedShoes
      shoeDocs := some acc.shoeDocs }
  | .error e =>
    { w with
      console := w.console ++ [LogEntry.error "Error loading shoes:" (.rejected e)]
      error := "Failed to load shoes." }

/-- The comparator of `loadPastViews`: `new Date(b.timestamp) - new Date(a.timestamp)`. -/
def viewCompare (env : DateEnv) (a b : PastView) : Option Int :=
  match env.dateParse b.timestamp, env.dateParse a.timestamp with
  | some tb, some ta => some (tb - ta)
  | _, _ => none

/-- Body of the `forEach` in `loadPastViews`. -/
def toPastView (env : DateEnv) (docSnap : ViewDoc) : PastView :=
  { id := docSnap.id, shoeName := docSnap.shoeName, details := docSnap.details,
    timestamp := env.toLocaleString docSnap.timestamp.toDate }

/-- The handler `loadPastViews(uid)`; `res` is the outcome of `getDocs`. -/
def loadPastViews (env : DateEnv) (uid : String) (res : Except String (List ViewDoc))
    (w : World) : World :=
  let w := { w with calls := w.calls ++ [Call.getDocs "shoeViews" uid] }
  match res with
  | .ok querySnapshot =>
    { w with pastViews := jsSort (viewCompare env) (querySnapshot.map (toPastView env)) }
  | .error e =>
    { w with
      console := w.console ++ [LogEntry.error "Error loading past views:" (.rejected e)]
      error := "Failed to load past views." }

/-- The handler `addShoe`; `now` is the time value of `new Date()` and `res` the
outcome of `addDoc` (the id of the new document, or a rejection). -/
def addShoe (now : Int) (res : Except String String) (w : World) : World :=
  let trimmed := jsTrim w.shoeName
  let price := parseFloat (.str w.shoePrice)
  if trimmed = "" ∨ isNaN price = true ∨ leZero price = true then
    { w with error := "Please enter a valid shoe name and price." }
  else if w.shoes.any (fun shoe => shoe.name = trimmed) = true then
    { w with error := "This shoe is already in your list." }
  else
    match w.userId with
    | none => w
    | some userId =>
      let w := { w with calls := w.calls ++ [Call.addShoeDoc userId trimmed price now] }
      match res with
      | .error e =>
        { w with
          console := w.console ++ [LogEntry.error "Error adding shoe:" (.rejected e)]
          error := "Failed to add shoe." }
      | .ok docId =>
        let w := { w with
          shoesColl := w.shoesColl ++ [ShoeDoc.mk docId userId trimmed (.num price)
                                          (Timestamp.fromMillis now)]
          shoes := w.shoes ++ [Shoe.mk trimmed price] }
        match w.shoeDocs with
        | some m =>
          { w with shoeDocs := some (mapSet m trimmed docId), shoeName := "", shoePrice := "",
                   error := "" }
        | none =>
          { w with
            console := w.console ++ [LogEntry.error "Error adding shoe:" .typeError]
            error := "Failed to add shoe." }

/-- The handler `deleteShoe(shoeToDelete)`; `res` is the outcome of `deleteDoc`.  With
`window.shoeDocs` undefined the guard itself throws, outside the `try`: the handler
ends there and no state is touched. -/
def deleteShoe (shoeToDelete : String) (res : Except String Unit) (w : World) : World :=
  match w.userId with
  | none => w
  | some _ =>
    match w.shoeDocs with
    | none => w
    | some m =>
      if mapHas m shoeToDelete = true then
        match mapGet m shoeToDelete with
        | some docId =>
          let w := { w with calls := w.calls ++ [Call.deleteDoc "shoes" docId] }
          match res with
          | .ok _ =>
            { w with
              shoesColl := w.shoesColl.filter (fun d => d.id ≠ docId)
              shoes := w.shoes.filter (fun item => item.name ≠ shoeToDelete)
              shoeDocs := some (mapDelete m shoeToDelete)
              error := "" }
          | .error e =>
            { w with
              console := w.console ++ [LogEntry.error "Error deleting shoe:" (.rejected e)]
              error := "Failed to delete shoe." }
        | none =>
          { w with
            console := w.console ++ [LogEntry.error "Error deleting shoe:" .typeError]
            error := "Failed to delete shoe." }
      else w

/-- The handler `clearShoes`; `res` is the outcome of `getDocs` and `deleteRes id` the
outcome of the `deleteDoc` issued for the document `id`.  All deletes are issued and
each takes effect on its own; `Promise.all` rejects when one of them does. -/
def clearShoes (res : Except String (List ShoeDoc)) (deleteRes : String → Except String Unit)
    (w : World) : World :=
  match w.userId with
  | none => w
  | some userId =>
    let w := { w with calls := w.calls ++ [Call.getDocs "shoes" userId] }
    match res with
    | .error e =>
      { w with
        console := w.console ++ [LogEntry.error "Error clearing shoes:" (.rejected e)]
        error := "Failed to clear shoes." }
    | .ok querySnapshot =>
      let deleted : String → Bool := fun id =>
        querySnapshot.any (fun (d : ShoeDoc) => d.id = id) && (deleteRes id).toBool
      let w := { w with
        calls := w.calls ++ querySnapshot.map (fun (d : ShoeDoc) => Call.deleteDoc "shoes" d.id)
        shoesColl := w.shoesColl.filter (fun d => !deleted d.id) }
      match querySnapshot.filterMap (fun (d : ShoeDoc) => match deleteRes d.id with
                                              | .error e => some e
                                              | .ok _ => none) with
      | e :: _ =>
        { w with
          console := w.console ++ [LogEntry.error "Error clearing shoes:" (.rejected e)]
          error := "Failed to clear shoes." }
      | [] =>
        let w := { w with shoes := [] }
        match w.shoeDocs with
        | some _ => { w with shoeDocs := some [], error := "" }
        | none =>
          { w with
            console := w.console ++ [LogEntry.error "Error clearing shoes:" .typeError]
            error := "Failed to clear shoes." }

/-- The `catch` block of `viewShoeDetails`, followed by its `finally` block. -/
def viewShoeDetailsCatch (thrown : Thrown) (w : World) : World :=
  { w with
    console := w.console ++ [LogEntry.error "Error fetching details:" thrown]
    shoeDetails := "Something went wrong!"
    error := "Failed to fetch shoe details."
    loading := false }

/-- The handler `viewShoeDetails`; `api` is the outcome of the request, `now` the time
value of `new Date()`, `writeRes` the outcome of the `addDoc` into `shoeViews` and
`viewsRes` the outcome of the query of the `loadPastViews` started after it. -/
def viewShoeDetails (env : DateEnv) (api : ApiResult) (now : Int)
    (writeRes : Except String String) (viewsRes : Except String (List ViewDoc))
    (w : World) : World :=
  if w.shoes.length = 0 then
    { w with error := "Add at least one shoe." }
  else
    let w := { w with loading := true, shoeDetails := "", error := "",
                      calls := w.calls ++ [Call.fetch w.shoes w.userId] }
    match api with
    | .threw e => viewShoeDetailsCatch (.rejected e) w
    | .json dataError dataDetails =>
      if truthy dataError = true then
        viewShoeDetailsCatch (.error (dataError.getD "")) w
      else
        let w := { w with
          shoeDetails := if truthy dataDetails = true then dataDetails.getD "" else "No details found." }
        match w.userId with
        | some userId =>
          if truthy dataDetails = true then
            let shoeName := ", ".intercalate (w.shoes.map (fun s => s.name))
            let details := dataDetails.getD ""
            let w := { w with calls := w.calls ++ [Call.addViewDoc userId shoeName details now] }
            match writeRes with
            | .ok docId =>
              let w := { w with
                viewsColl := w.viewsColl ++ [ViewDoc.mk docId userId shoeName details
                                          (Timestamp.fromMillis now)] }
              loadPastViews env userId viewsRes { w with loading := false }
            | .error e => viewShoeDetailsCatch (.rejected e) w
          else { w with loading := false }
        | none => { w with loading := false }

/-- Mounting the component (also again, after the user has left the page and come
back): every `useState` cell starts at its default, while `window.shoeDocs`, the console
and the collections are what they were.  Then the effect runs; `auth` is the outcome of
`signInAnonymously`, `shoesRes` and `viewsRes` the outcomes of the queries of the
`loadShoes` and `loadPastViews` it starts.  This is the only call of `loadShoes`. -/
def mount (env : DateEnv) (auth : Except String String)
    (shoesRes : Except String (List ShoeDoc)) (viewsRes : Except String (List ViewDoc))
    (w : World) : World :=
  let w := { w with shoeName := "", shoePrice := "", shoes := [], shoeDetails := "",
                    loading := false, userId := none, pastViews := [], error := "" }
  match auth with
  | .ok uid =>
    loadPastViews env uid viewsRes (loadShoes uid shoesRes { w with userId := some uid })
  | .error e =>
    { w with
      console := w.console ++ [LogEntry.error "Auth error:" (.rejected e)]
      error := "Failed to authenticate. Please try again." }

/-! ## Records, items and invariants -/

/-- A record "whose price is numeric": `parseFloat` of its price field is not `NaN`. -/
def numericPrice (d : ShoeDoc) : Bool :=
  !isNaN (parseFloat d.price)

/-- The item a record stands for: its name, and its price parsed to a number. -/
def toShoe (d : ShoeDoc) : Shoe :=
  { name := d.shoeName, price := parseFloat d.price }

/-- The item list that a sequence of records stands for: the records whose price is
numeric, in order, each as an item. -/
def itemsOf (docs : List ShoeDoc) : List Shoe :=
  (docs.filter numericPrice).map toShoe

/-- The documents that the query `where('userId', '==', uid)` on `shoes` matches. -/
def userDocs (uid : String) (w : World) : List ShoeDoc :=
  w.shoesColl.filter (fun d => d.userId = uid)

/-- The index and the list in lockstep: `window.shoeDocs` is a map whose keys are
exactly the names of the shoes of the list. -/
def Lockstep (w : World) : Prop :=
  ∃ m, w.shoeDocs = some m ∧ ∀ n, mapHas m n = true ↔ ∃ shoe ∈ w.shoes, shoe.name = n

/-- The invariant that keeps names unique: no name occurs twice in the list or in the
collection; every document of the collection belongs to the signed-in user, has a
numeric price and has its name in the list; and the index, when it exists, maps the
name of every document to the id of that document. -/
structure NamesInv (w : World) : Prop where
  shoes_nodup : (w.shoes.map Shoe.name).Nodup
  docs_nodup : (w.shoesColl.map ShoeDoc.shoeName).Nodup
  docs_owned : ∀ d ∈ w.shoesColl, some d.userId = w.userId
  docs_numeric : ∀ d ∈ w.shoesColl, numericPrice d = true
  docs_listed : ∀ d ∈ w.shoesColl, d.shoeName ∈ w.shoes.map Shoe.name
  index_ids : ∀ m, w.shoeDocs = some m → ∀ d ∈ w.shoesColl, mapGet m d.shoeName = some d.id

/-! ## A visit, a return to the page while the store is unreachable, and a second add -/

/-- First visit: the component mounts, user `u1` is signed in and both queries succeed
on empty collections. -/
def firstMount : World :=
  mount enUS (.ok "u1") (.ok []) (.ok []) World.initial

/-- The user enters "Air Max" at 120 and `addDoc` succeeds with the id `d1`. -/
def airMaxAdded : World :=
  addShoe 7 (.ok "d1") { firstMount with shoeName := "Air Max", shoePrice := "120" }

/-- The user leaves the page and comes back: the component mounts again, sign-in gives
`u1` again, and the query of `loadShoes` rejects. -/
def remountLoadRejected : World :=
  mount enUS (.ok "u1") (.error "unavailable") (.ok []) airMaxAdded

/-- The user enters "Air Max" at 120 once more and `addDoc` succeeds with the id `d2`. -/
def airMaxAddedAgain : World :=
  addShoe 9 (.ok "d2") { remountLoadRejected with shoeName := "Air Max", shoePrice := "120" }

/-- The user leaves and comes back once more; this time the query of `loadShoes`
succeeds and returns the documents of `u1`. -/
def remountLoaded : World :=
  mount enUS (.ok "u1") (.ok (userDocs "u1" airMaxAddedAgain)) (.ok []) airMaxAddedAgain

/-! ## Validation in `addShoe` -/

/-- The list test `shoes.some(shoe => shoe.name === trimmed)` as a proposition. -/
theorem any_name_iff (shoes : List Shoe) (n : String) :
    shoes.any (fun shoe => shoe.name = n) = true ↔ ∃ shoe ∈ shoes, shoe.name = n := by
  simp [List.any_eq_true]

/-- C1. When the trimmed input name is the name of a shoe of the list (shoe names being
non-empty) and the price parses to a number above zero, `addShoe` only sets the banner
to the duplicate message: no call is issued, and the list, the index and both
collections are what they were. -/
theorem addShoe_duplicate_rejected (w : World) (now : Int) (res : Except String String)
    (hnames : ∀ shoe ∈ w.shoes, shoe.name ≠ "")
    (hdup : ∃ shoe ∈ w.shoes, shoe.name = jsTrim w.shoeName)
    (hnan : isNaN (parseFloat (.str w.shoePrice)) = false)
    (hpos : leZero (parseFloat (.str w.shoePrice)) = false) :
    addShoe now res w = { w with error := "This shoe is already in your list." } := by
  have hne : jsTrim w.shoeName ≠ "" := by
    obtain ⟨shoe, hmem, heq⟩ := hdup
    exact heq ▸ hnames shoe hmem
  have hany := (any_name_iff w.shoes (jsTrim w.shoeName)).mpr hdup
  unfold addShoe
  simp only [hne, hnan, hpos, hany, false_or, Bool.false_eq_true, if_false, if_true]

/-- Witness for C1: "  Air Max " at 99.5 when "Air Max" is already listed. -/
theorem addShoe_duplicate_rejected_witness :
    addShoe 7 (.ok "d2")
        { World.initial with
          shoeName := "  Air Max ", shoePrice := "99.5", userId := some "u1",
          shoes := [⟨"Air Max", parseFloat (.str "120.00")⟩],
          shoeDocs := some [("Air Max", "d1")] } =
      { World.initial with
        shoeName := "  Air Max ", shoePrice := "99.5", userId := some "u1",
        shoes := [⟨"Air Max", parseFloat (.str "120.00")⟩],
        shoeDocs := some [("Air Max", "d1")],
        error := "This shoe is already in your list." } :=
  addShoe_duplicate_rejected _ 7 (.ok "d2") (by decide) (by decide) (by decide) (by decide)

/-- Counterexample to C2: the price text "Infinity" parses to a Number that is not
finite, yet `addShoe` accepts it, writes the document and appends the shoe. -/
theorem addShoe_accepts_infinity :
    isFinite (parseFloat (.str "Infinity")) = false ∧
    addShoe 7 (.ok "d1")
        { World.initial with
          shoeName := "Air Max", shoePrice := "Infinity", userId := some "u1",
          shoeDocs := some [] } =
      { World.initial with
        userId := some "u1",
        shoes := [⟨"Air Max", .inf false⟩],
        shoeDocs := some [("Air Max", "d1")],
        calls := [Call.addShoeDoc "u1" "Air Max" (.inf false) 7],
        shoesColl := [⟨"d1", "u1", "Air Max", .num (.inf false), ⟨0, 7000000⟩⟩] } := by
  decide

/-- C2, amended. When the price text parses to `NaN` or to a Number that is `<= 0`
(negative infinity included), `addShoe` only sets the banner to the validation
message: no call is issued, and the list, the index and both collections are what
they were. -/
theorem addShoe_invalid_price_rejected (w : World) (now : Int) (res : Except String String)
    (hprice : isNaN (parseFloat (.str w.shoePrice)) = true ∨
      leZero (parseFloat (.str w.shoePrice)) = true) :
    addShoe now res w = { w with error := "Please enter a valid shoe name and price." } := by
  unfold addShoe
  rw [if_pos (Or.inr hprice)]

/-- Witness for C2, amended: the price text "-5". -/
theorem addShoe_invalid_price_rejected_witness :
    addShoe 7 (.ok "d1")
        { World.initial with shoeName := "Air Max", shoePrice := "-5", userId := some "u1" } =
      { World.initial with
        shoeName := "Air Max", shoePrice := "-5", userId := some "u1",
        error := "Please enter a valid shoe name and price." } :=
  addShoe_invalid_price_rejected _ 7 (.ok "d1") (Or.inr (by decide))

/-! ## Failed writes -/

/-- Shape of the result of `addShoe` when `addDoc` rejects. -/
theorem addShoe_error_cases (w : World) (now : Int) (e : String) :
    (∃ msg, addShoe now (.error e) w = { w with error := msg }) ∨
    addShoe now (.error e) w = w ∨
    (∃ c, addShoe now (.error e) w =
      { w with
        calls := w.calls ++ [c]
        console := w.console ++ [LogEntry.error "Error adding shoe:" (.rejected e)]
        error := "Failed to add shoe." }) := by
  by_cases h1 : jsTrim w.shoeName = "" ∨ isNaN (parseFloat (.str w.shoePrice)) = true ∨
      leZero (parseFloat (.str w.shoePrice)) = true
  · exact Or.inl ⟨"Please enter a valid shoe name and price.",
      by unfold addShoe; simp only [h1, if_true]⟩
  · by_cases h2 : w.shoes.any (fun shoe => shoe.name = jsTrim w.shoeName) = true
    · exact Or.inl ⟨"This shoe is already in your list.",
        by unfold addShoe; simp only [h1, h2, if_true, if_false]⟩
    · cases hu : w.userId with
      | none =>
        exact Or.inr (Or.inl (by
          unfold addShoe; simp only [h1, h2, hu, if_false, Bool.false_eq_true]))
      | some u =>
        exact Or.inr (Or.inr ⟨Call.addShoeDoc u (jsTrim w.shoeName) (parseFloat (.str w.shoePrice)) now,
          by unfold addShoe; simp only [h1, h2, hu, if_false, Bool.false_eq_true]⟩)

/-- Shape of the result of `deleteShoe` when `deleteDoc` rejects. -/
theorem deleteShoe_error_cases (w : World) (shoeToDelete e : String) :
    deleteShoe shoeToDelete (.error e) w = w ∨
    (∃ c t, deleteShoe shoeToDelete (.error e) w =
      { w with
        calls := w.calls ++ c
        console := w.console ++ [LogEntry.error "Error deleting shoe:" t]
        error := "Failed to delete shoe." }) := by
  cases hu : w.userId with
  | none => exact Or.inl (by unfold deleteShoe; simp only [hu])
  | some u =>
    cases hm : w.shoeDocs with
    | none => exact Or.inl (by unfold deleteShoe; simp only [hu, hm])
    | some m =>
      by_cases hh : mapHas m shoeToDelete = true
      · cases hg : mapGet m shoeToDelete with
        | none =>
          refine Or.inr ⟨[], Thrown.typeError, ?_⟩
          unfold deleteShoe
          simp only [hu, hm, hh, hg, if_true, List.append_nil]
        | some docId =>
          refine Or.inr ⟨[Call.deleteDoc "shoes" docId], Thrown.rejected e, ?_⟩
          unfold deleteShoe
          simp only [hu, hm, hh, hg, if_true]
      · exact Or.inl (by
          unfold deleteShoe; simp only [hu, hm, hh, if_false, Bool.false_eq_true])

/-- C3. When `addDoc` rejects in `addShoe`, or `deleteDoc` rejects in `deleteShoe`, the
list, the index and the collection are what they were before the call, and whenever
the handler got as far as issuing the write, the banner shows its write error. -/
theorem failed_write_keeps_local_state (w : World) (now : Int) (shoeToDelete e : String) :
    ((addShoe now (.error e) w).shoes = w.shoes ∧
      (addShoe now (.error e) w).shoeDocs = w.shoeDocs ∧
      (addShoe now (.error e) w).shoesColl = w.shoesColl ∧
      ((addShoe now (.error e) w).calls ≠ w.calls →
        (addShoe now (.error e) w).error = "Failed to add shoe.")) ∧
    ((deleteShoe shoeToDelete (.error e) w).shoes = w.shoes ∧
      (deleteShoe shoeToDelete (.error e) w).shoeDocs = w.shoeDocs ∧
      (deleteShoe shoeToDelete (.error e) w).shoesColl = w.shoesColl ∧
      ((deleteShoe shoeToDelete (.error e) w).calls ≠ w.calls →
        (deleteShoe shoeToDelete (.error e) w).error = "Failed to delete shoe.")) := by
  constructor
  · rcases addShoe_error_cases w now e with ⟨msg, h⟩ | h | ⟨c, h⟩ <;> rw [h] <;> simp
  · rcases deleteShoe_error_cases w shoeToDelete e with h | ⟨c, t, h⟩ <;> rw [h] <;> simp

/-- The write of `addShoe` is issued, and its failure reported, for every valid new
name once a user is signed in. -/
theorem addShoe_failed_write_reported (w : World) (now : Int) (e uid : String)
    (huser : w.userId = some uid)
    (hname : jsTrim w.shoeName ≠ "")
    (hnan : isNaN (parseFloat (.str w.shoePrice)) = false)
    (hpos : leZero (parseFloat (.str w.shoePrice)) = false)
    (hnew : ∀ shoe ∈ w.shoes, shoe.name ≠ jsTrim w.shoeName) :
    addShoe now (.error e) w =
      { w with
        calls := w.calls ++
          [Call.addShoeDoc uid (jsTrim w.shoeName) (parseFloat (.str w.shoePrice)) now]
        console := w.console ++ [LogEntry.error "Error adding shoe:" (.rejected e)]
        error := "Failed to add shoe." } := by
  have hany : ¬ (w.shoes.any (fun shoe => shoe.name = jsTrim w.shoeName) = true) := by
    rw [any_name_iff]
    rintro ⟨shoe, hmem, heq⟩
    exact hnew shoe hmem heq
  unfold addShoe
  simp only [hname, hnan, hpos, hany, huser, false_or, Bool.false_eq_true, if_false]

/-! ## `viewShoeDetails` -/

/-- Counterexample to C9: for the response `{error: "rate limited"}` the error the
handler reports is its own fixed text, not the message of the service. -/
theorem viewShoeDetails_error_not_service_message :
    (viewShoeDetails enUS (.json (some "rate limited") none) 7 (.ok "v1") (.ok [])
        { World.initial with
          userId := some "u1", shoes := [⟨"Air Max", parseFloat (.str "120")⟩] }).error
      = "Failed to fetch shoe details." ∧
    (viewShoeDetails enUS (.json (some "rate limited") none) 7 (.ok "v1") (.ok [])
        { World.initial with
          userId := some "u1", shoes := [⟨"Air Max", parseFloat (.str "120")⟩] }).error
      ≠ "rate limited" := by
  decide

/-- C9, amended. With a non-empty list and a response whose `error` is a non-empty
message `m`, `viewShoeDetails` issues the request and nothing else: it writes `m` to the
console only, reports the fixed text "Failed to fetch shoe details.", shows
"Something went wrong!" as details, and leaves both collections as they were. -/
theorem viewShoeDetails_service_error (env : DateEnv) (w : World) (m : String)
    (details : Option String) (now : Int) (writeRes : Except String String)
    (viewsRes : Except String (List ViewDoc))
    (hshoes : w.shoes ≠ []) (hm : m ≠ "") :
    viewShoeDetails env (.json (some m) details) now writeRes viewsRes w =
      { w with
        calls := w.calls ++ [Call.fetch w.shoes w.userId]
        console := w.console ++ [LogEntry.error "Error fetching details:" (.error m)]
        shoeDetails := "Something went wrong!"
        error := "Failed to fetch shoe details."
        loading := false } := by
  have hlen : ¬ (w.shoes.length = 0) := by
    simpa [List.length_eq_zero] using hshoes
  have ht : truthy (some m) = true := by simp [truthy, hm]
  unfold viewShoeDetails
  simp only [hlen, ht, if_false, if_true, viewShoeDetailsCatch, Option.getD_some]

/-- Witness for C9, amended: the response `{error: "rate limited"}`. -/
theorem viewShoeDetails_service_error_witness :
    viewShoeDetails enUS (.json (some "rate limited") none) 7 (.ok "v1") (.ok [])
        { World.initial with
          userId := some "u1", shoes := [⟨"Air Max", parseFloat (.str "120")⟩] } =
      { World.initial with
        userId := some "u1", shoes := [⟨"Air Max", parseFloat (.str "120")⟩],
        calls := [Call.fetch [⟨"Air Max", parseFloat (.str "120")⟩] (some "u1")],
        console := [LogEntry.error "Error fetching details:" (.error "rate limited")],
        shoeDetails := "Something went wrong!",
        error := "Failed to fetch shoe details." } :=
  viewShoeDetails_service_error enUS _ "rate limited" none 7 (.ok "v1") (.ok [])
    (by decide) (by decide)

/-- When the response carries non-empty details, a user is signed in and the write of
the view record rejects, the `catch` block replaces the details just shown. -/
theorem viewShoeDetails_failed_log_write (env : DateEnv) (w : World) (d uid e : String)
    (now : Int) (viewsRes : Except String (List ViewDoc))
    (hshoes : w.shoes ≠ []) (hd : d ≠ "") (huser : w.userId = some uid) :
    viewShoeDetails env (.json none (some d)) now (.error e) viewsRes w =
      { w with
        calls := w.calls ++ [Call.fetch w.shoes w.userId,
          Call.addViewDoc uid (", ".intercalate (w.shoes.map (fun s => s.name))) d now]
        console := w.console ++ [LogEntry.error "Error fetching details:" (.rejected e)]
        shoeDetails := "Something went wrong!"
        error := "Failed to fetch shoe details."
        loading := false } := by
  have hlen : ¬ (w.shoes.length = 0) := by
    simpa [List.length_eq_zero] using hshoes
  have ht : truthy (some d) = true := by simp [truthy, hd]
  have hn : truthy none = false := rfl
  unfold viewShoeDetails
  simp only [hlen, ht, hn, huser, if_false, if_true, viewShoeDetailsCatch, Option.getD_some,
    Bool.false_eq_true, List.append_assoc, List.singleton_append]

/-- C10, on the code. For the list `[Air Max]`, the user `u1` and the response
`{details: "A running shoe."}`, when the write of the view record rejects, the details
held after `viewShoeDetails` are "Something went wrong!" and no longer the text of the
service; the banner reads "Failed to fetch shoe details.". -/
theorem viewShoeDetails_failed_log_write_replaces_details :
    viewShoeDetails enUS (.json none (some "A running shoe.")) 7 (.error "unavailable") (.ok [])
        { World.initial with
          userId := some "u1", shoes := [⟨"Air Max", parseFloat (.str "120")⟩] } =
      { World.initial with
        userId := some "u1", shoes := [⟨"Air Max", parseFloat (.str "120")⟩],
        calls := [Call.fetch [⟨"Air Max", parseFloat (.str "120")⟩] (some "u1"),
          Call.addViewDoc "u1" "Air Max" "A running shoe." 7],
        console := [LogEntry.error "Error fetching details:" (.rejected "unavailable")],
        shoeDetails := "Something went wrong!",
        error := "Failed to fetch shoe details." } := by
  decide

/-! ## `loadPastViews` -/

theorem sortInsert_perm {α : Type} (cmp : α → α → Option Int) (x : α) (l : List α) :
    (sortInsert cmp x l).Perm (x :: l) := by
  induction l with
  | nil => exact List.Perm.refl _
  | cons y ys ih =>
    unfold sortInsert
    cases cmp x y with
    | none => exact List.Perm.refl _
    | some v =>
      by_cases hv : 0 < v
      · simp only [hv, if_true]
        exact ((List.Perm.cons y ih).trans (List.Perm.swap x y ys))
      · simp only [hv, if_false]
        exact List.Perm.refl _

theorem jsSort_perm {α : Type} (cmp : α → α → Option Int) (l : List α) :
    (jsSort cmp l).Perm l := by
  induction l with
  | nil => exact List.Perm.refl _
  | cons x xs ih =>
    unfold jsSort
    exact (sortInsert_perm cmp x _).trans (List.Perm.cons x ih)

/-- The sort moves nothing when the comparator is positive for no pair. -/
theorem jsSort_eq_self {α : Type} (cmp : α → α → Option Int) (l : List α)
    (h : ∀ a ∈ l, ∀ b ∈ l, ∀ v, cmp a b = some v → ¬ 0 < v) : jsSort cmp l = l := by
  induction l with
  | nil => rfl
  | cons x xs ih =>
    have hxs : jsSort cmp xs = xs :=
      ih (fun a ha b hb => h a (List.mem_cons_of_mem _ ha) b (List.mem_cons_of_mem _ hb))
    unfold jsSort
    rw [hxs]
    cases xs with
    | nil => rfl
    | cons y ys =>
      unfold sortInsert
      cases hc : cmp x y with
      | none => rfl
      | some v =>
        have := h x (List.mem_cons_self _ _) y (List.mem_cons_of_mem _ (List.mem_cons_self _ _)) v hc
        simp only [this, if_false]

/-- A successful `loadPastViews` shows every record the query returned, once each. -/
theorem loadPastViews_perm (env : DateEnv) (uid : String) (docs : List ViewDoc) (w : World) :
    (loadPastViews env uid (.ok docs) w).pastViews.Perm (docs.map (toPastView env)) := by
  simp only [loadPastViews]
  exact jsSort_perm _ _

/-- In every locale: records whose dates print alike are left in query order, whatever
their creation times. -/
theorem loadPastViews_equal_display (env : DateEnv) (uid : String) (docs : List ViewDoc)
    (w : World)
    (hsame : ∀ d ∈ docs, ∀ d' ∈ docs,
      env.toLocaleString d.timestamp.toDate = env.toLocaleString d'.timestamp.toDate) :
    (loadPastViews env uid (.ok docs) w).pastViews = docs.map (toPastView env) := by
  simp only [loadPastViews]
  apply jsSort_eq_self
  intro a ha b hb v hv
  obtain ⟨d, hd, rfl⟩ := List.mem_map.mp ha
  obtain ⟨d', hd', rfl⟩ := List.mem_map.mp hb
  have hts : (toPastView env d').timestamp = (toPastView env d).timestamp := hsame d' hd' d hd
  unfold viewCompare at hv
  rw [hts] at hv
  cases hp : env.dateParse (toPastView env d).timestamp with
  | none => simp [hp] at hv
  | some t =>
    simp only [hp, Option.some.injEq] at hv
    omega

/-- Three view records created in three different seconds come out newest first. -/
theorem loadPastViews_distinct_seconds :
    (loadPastViews enUS "u1"
        (.ok [⟨"v2", "u1", "Air Max", "second", ⟨1700000001, 0⟩⟩,
              ⟨"v1", "u1", "Air Max", "first", ⟨1700000000, 0⟩⟩,
              ⟨"v3", "u1", "Air Max", "third", ⟨1700000002, 0⟩⟩])
        World.initial).pastViews =
      [⟨"v3", "Air Max", "third", "11/14/2023, 10:13:22 PM"⟩,
       ⟨"v2", "Air Max", "second", "11/14/2023, 10:13:21 PM"⟩,
       ⟨"v1", "Air Max", "first", "11/14/2023, 10:13:20 PM"⟩] := by
  decide

/-- C8, on the code. Three view records created one millisecond apart within one
second, returned by the query oldest first: their display strings are equal, the
comparator sees no difference, and `loadPastViews` keeps the query order, oldest
first, where newest first was required. -/
theorem loadPastViews_same_second_keeps_query_order :
    (⟨1700000000, 0⟩ : Timestamp).toDate < (⟨1700000000, 1000000⟩ : Timestamp).toDate ∧
    (⟨1700000000, 1000000⟩ : Timestamp).toDate < (⟨1700000000, 2000000⟩ : Timestamp).toDate ∧
    (loadPastViews enUS "u1"
        (.ok [⟨"v1", "u1", "Air Max", "first", ⟨1700000000, 0⟩⟩,
              ⟨"v2", "u1", "Air Max", "second", ⟨1700000000, 1000000⟩⟩,
              ⟨"v3", "u1", "Air Max", "third", ⟨1700000000, 2000000⟩⟩])
        World.initial).pastViews =
      [⟨"v1", "Air Max", "first", "11/14/2023, 10:13:20 PM"⟩,
       ⟨"v2", "Air Max", "second", "11/14/2023, 10:13:20 PM"⟩,
       ⟨"v3", "Air Max", "third", "11/14/2023, 10:13:20 PM"⟩] := by
  decide

/-! ## `Map` lemmas -/

theorem mapGet_mapSet (m : JSMap) (k v k' : String) :
    mapGet (mapSet m k v) k' = if k = k' then some v else mapGet m k' := by
  induction m with
  | nil => simp [mapSet, mapGet]
  | cons e rest ih =>
    obtain ⟨k0, v0⟩ := e
    by_cases h0 : k0 = k
    · subst h0
      by_cases h1 : k0 = k' <;> simp [mapSet, mapGet, h1]
    · by_cases h1 : k0 = k'
      · subst h1
        have : ¬ k = k0 := fun h => h0 h.symm
        simp [mapSet, mapGet, h0, this]
      · simp [mapSet, mapGet, h0, h1, ih]

theorem mapHas_mapSet (m : JSMap) (k v k' : String) :
    mapHas (mapSet m k v) k' = true ↔ k = k' ∨ mapHas m k' = true := by
  unfold mapHas
  rw [mapGet_mapSet]
  by_cases h : k = k' <;> simp [h]

theorem mapGet_mapDelete (m : JSMap) (k k' : String) :
    mapGet (mapDelete m k) k' = if k = k' then none else mapGet m k' := by
  induction m with
  | nil => simp [mapDelete, mapGet]
  | cons e rest ih =>
    obtain ⟨k0, v0⟩ := e
    unfold mapDelete at ih ⊢
    simp only [ne_eq, decide_not] at ih ⊢
    by_cases h0 : k0 = k
    · subst h0
      by_cases h1 : k0 = k'
      · subst h1
        simpa [List.filter] using ih
      · simpa [List.filter, mapGet, h1] using ih
    · by_cases h1 : k0 = k'
      · subst h1
        have : ¬ k = k0 := fun h => h0 h.symm
        simp [List.filter, mapGet, h0, this]
      · simp [List.filter, mapGet, h0, h1, ih]

theorem mapHas_mapDelete (m : JSMap) (k k' : String) :
    mapHas (mapDelete m k) k' = true ↔ k ≠ k' ∧ mapHas m k' = true := by
  unfold mapHas
  rw [mapGet_mapDelete]
  by_cases h : k = k' <;> simp [h]

/-! ## `loadShoes` -/

/-- The map built by setting, in order, the name of each document to its id. -/
theorem foldl_loadShoesStep (docs : List ShoeDoc) (acc : LoadAcc) :
    (docs.foldl loadShoesStep acc).loadedShoes = acc.loadedShoes ++ itemsOf docs ∧
    (docs.foldl loadShoesStep acc).shoeDocs =
      (docs.filter numericPrice).foldl (fun m d => mapSet m d.shoeName d.id) acc.shoeDocs := by
  induction docs generalizing acc with
  | nil => simp [itemsOf]
  | cons d rest ih =>
    by_cases hd : isNaN (parseFloat d.price) = false
    · have hn : numericPrice d = true := by simp [numericPrice, hd]
      have hstep : loadShoesStep acc d =
          { acc with
            loadedShoes := acc.loadedShoes ++ [toShoe d]
            shoeDocs := mapSet acc.shoeDocs d.shoeName d.id } := by
        simp [loadShoesStep, hd, toShoe]
      rw [List.foldl_cons, hstep]
      obtain ⟨h1, h2⟩ := ih { acc with
            loadedShoes := acc.loadedShoes ++ [toShoe d]
            shoeDocs := mapSet acc.shoeDocs d.shoeName d.id }
      rw [h1, h2]
      simp [itemsOf, List.filter_cons, hn]
    · have hn : numericPrice d = false := by
        simp only [numericPrice]
        cases h : isNaN (parseFloat d.price) <;> simp_all
      have hstep : loadShoesStep acc d =
          { acc with warnings := acc.warnings ++ [LogEntry.warn "Invalid shoe price:" d] } := by
        simp [loadShoesStep, hd]
      rw [List.foldl_cons, hstep]
      obtain ⟨h1, h2⟩ := ih { acc with
            warnings := acc.warnings ++ [LogEntry.warn "Invalid shoe price:" d] }
      rw [h1, h2]
      simp [itemsOf, List.filter_cons, hn]

theorem mapHas_foldl_mapSet (docs : List ShoeDoc) (m : JSMap) (n : String) :
    mapHas (docs.foldl (fun m d => mapSet m d.shoeName d.id) m) n = true ↔
      mapHas m n = true ∨ ∃ d ∈ docs, d.shoeName = n := by
  induction docs generalizing m with
  | nil => simp
  | cons d rest ih =>
    rw [List.foldl_cons, ih, mapHas_mapSet]
    constructor
    · rintro ((h | h) | ⟨d', hd', h⟩)
      · exact Or.inr ⟨d, List.mem_cons_self _ _, h⟩
      · exact Or.inl h
      · exact Or.inr ⟨d', List.mem_cons_of_mem _ hd', h⟩
    · rintro (h | ⟨d', hd', h⟩)
      · exact Or.inl (Or.inr h)
      · rcases List.mem_cons.mp hd' with rfl | hmem
        · exact Or.inl (Or.inl h)
        · exact Or.inr ⟨d', hmem, h⟩

theorem loadShoes_ok_shoes (uid : String) (docs : List ShoeDoc) (w : World) :
    (loadShoes uid (.ok docs) w).shoes = itemsOf docs := by
  simp [loadShoes, (foldl_loadShoesStep docs _).1]

theorem loadShoes_ok_shoeDocs (uid : String) (docs : List ShoeDoc) (w : World) :
    (loadShoes uid (.ok docs) w).shoeDocs =
      some ((docs.filter numericPrice).foldl (fun m d => mapSet m d.shoeName d.id) []) := by
  simp [loadShoes, (foldl_loadShoesStep docs _).2]

/-- C7. For the records a successful query hands to `loadShoes`, the resulting list is
the records with a numeric price, in query order, each with its price parsed; the
resulting index has a key exactly for the names of those records; no item of the list
has a `NaN` price, so a record with a non-numeric price is in neither. -/
theorem loadShoes_keeps_numeric_records (uid : String) (docs : List ShoeDoc) (w : World) :
    (loadShoes uid (.ok docs) w).shoes = (docs.filter numericPrice).map toShoe ∧
    (∃ m, (loadShoes uid (.ok docs) w).shoeDocs = some m ∧
      ∀ n, mapHas m n = true ↔ ∃ d ∈ docs, numericPrice d = true ∧ d.shoeName = n) ∧
    (∀ shoe ∈ (loadShoes uid (.ok docs) w).shoes, isNaN shoe.price = false) := by
  refine ⟨loadShoes_ok_shoes uid docs w, ⟨_, loadShoes_ok_shoeDocs uid docs w, ?_⟩, ?_⟩
  · intro n
    rw [mapHas_foldl_mapSet]
    simp [mapHas, mapGet, List.mem_filter, and_assoc]
  · intro shoe hshoe
    rw [loadShoes_ok_shoes, itemsOf] at hshoe
    obtain ⟨d, hd, rfl⟩ := List.mem_map.mp hshoe
    have := (List.mem_filter.mp hd).2
    simpa [numericPrice, toShoe] using this

/-- The scenario of C7: a record whose price is the text "abc" is left out of the list
and of the index, and reported on the console. -/
theorem loadShoes_skips_abc :
    loadShoes "u1"
        (.ok [⟨"d1", "u1", "Air Max", .num (parseFloat (.str "120")), ⟨0, 0⟩⟩,
              ⟨"d2", "u1", "Moccasin", .str "abc", ⟨0, 0⟩⟩,
              ⟨"d3", "u1", "Clog", .str "45.5", ⟨0, 0⟩⟩])
        World.initial =
      { World.initial with
        calls := [Call.getDocs "shoes" "u1"],
        console := [LogEntry.warn "Invalid shoe price:"
          ⟨"d2", "u1", "Moccasin", .str "abc", ⟨0, 0⟩⟩],
        shoes := [⟨"Air Max", parseFloat (.str "120")⟩, ⟨"Clog", parseFloat (.str "45.5")⟩],
        shoeDocs := some [("Air Max", "d1"), ("Clog", "d3")] } := by
  decide

/-! ## Effect of each handler on the list, the index and the collection -/

/-- Either `addShoe` leaves the list, the index and the collection alone, or the input
was valid and new, a user is signed in and `addDoc` succeeded: then the shoe is
appended to the list, its document to the collection, and the index, when it exists,
maps the name to the new id. -/
theorem addShoe_effect (now : Int) (res : Except String String) (w : World) :
    (addShoe now res w).userId = w.userId ∧
    (((addShoe now res w).shoes = w.shoes ∧ (addShoe now res w).shoeDocs = w.shoeDocs ∧
        (addShoe now res w).shoesColl = w.shoesColl) ∨
      ∃ uid docId, w.userId = some uid ∧ res = .ok docId ∧
        isNaN (parseFloat (.str w.shoePrice)) = false ∧
        leZero (parseFloat (.str w.shoePrice)) = false ∧
        (∀ shoe ∈ w.shoes, shoe.name ≠ jsTrim w.shoeName) ∧
        (addShoe now res w).shoes =
          w.shoes ++ [⟨jsTrim w.shoeName, parseFloat (.str w.shoePrice)⟩] ∧
        (addShoe now res w).shoeDocs =
          w.shoeDocs.map (fun m => mapSet m (jsTrim w.shoeName) docId) ∧
        (addShoe now res w).shoesColl =
          w.shoesColl ++ [⟨docId, uid, jsTrim w.shoeName, .num (parseFloat (.str w.shoePrice)),
            Timestamp.fromMillis now⟩]) := by
  by_cases h1 : jsTrim w.shoeName = "" ∨ isNaN (parseFloat (.str w.shoePrice)) = true ∨
      leZero (parseFloat (.str w.shoePrice)) = true
  · have : addShoe now res w = { w with error := "Please enter a valid shoe name and price." } := by
      unfold addShoe; simp only [h1, if_true]
    rw [this]; simp
  · by_cases h2 : w.shoes.any (fun shoe => shoe.name = jsTrim w.shoeName) = true
    · have : addShoe now res w = { w with error := "This shoe is already in your list." } := by
        unfold addShoe; simp only [h1, h2, if_true, if_false]
      rw [this]; simp
    · have hnew : ∀ shoe ∈ w.shoes, shoe.name ≠ jsTrim w.shoeName := by
        intro shoe hmem heq
        exact h2 ((any_name_iff _ _).mpr ⟨shoe, hmem, heq⟩)
      have hnan : isNaN (parseFloat (.str w.shoePrice)) = false := by
        cases h : isNaN (parseFloat (.str w.shoePrice))
        · rfl
        · exact absurd (Or.inr (Or.inl h)) h1
      have hpos : leZero (parseFloat (.str w.shoePrice)) = false := by
        cases h : leZero (parseFloat (.str w.shoePrice))
        · rfl
        · exact absurd (Or.inr (Or.inr h)) h1
      cases hu : w.userId with
      | none =>
        have : addShoe now res w = w := by
          unfold addShoe; simp only [h1, h2, hu, if_false, Bool.false_eq_true]
        rw [this]; simp [hu]
      | some uid =>
        cases res with
        | error e =>
          rcases addShoe_error_cases w now e with ⟨msg, h⟩ | h | ⟨c, h⟩ <;> rw [h] <;> simp [hu]
        | ok docId =>
          cases hm : w.shoeDocs with
          | none =>
            have : addShoe now (.ok docId) w =
                { w with
                  calls := w.calls ++ [Call.addShoeDoc uid (jsTrim w.shoeName)
                    (parseFloat (.str w.shoePrice)) now]
                  shoesColl := w.shoesColl ++ [⟨docId, uid, jsTrim w.shoeName,
                    .num (parseFloat (.str w.shoePrice)), Timestamp.fromMillis now⟩]
                  shoes := w.shoes ++ [⟨jsTrim w.shoeName, parseFloat (.str w.shoePrice)⟩]
                  console := w.console ++ [LogEntry.error "Error adding shoe:" .typeError]
                  error := "Failed to add shoe." } := by
              unfold addShoe; simp only [h1, h2, hu, hm, if_false, Bool.false_eq_true]
            rw [this]
            refine ⟨by simp [hu], Or.inr ⟨uid, docId, rfl, rfl, hnan, hpos, hnew, ?_, ?_, ?_⟩⟩ <;>
              simp [hm]
          | some m =>
            have : addShoe now (.ok docId) w =
                { w with
                  calls := w.calls ++ [Call.addShoeDoc uid (jsTrim w.shoeName)
                    (parseFloat (.str w.shoePrice)) now]
                  shoesColl := w.shoesColl ++ [⟨docId, uid, jsTrim w.shoeName,
                    .num (parseFloat (.str w.shoePrice)), Timestamp.fromMillis now⟩]
                  shoes := w.shoes ++ [⟨jsTrim w.shoeName, parseFloat (.str w.shoePrice)⟩]
                  shoeDocs := some (mapSet m (jsTrim w.shoeName) docId)
                  shoeName := "", shoePrice := "", error := "" } := by
              unfold addShoe; simp only [h1, h2, hu, hm, if_false, Bool.false_eq_true]
            rw [this]
            refine ⟨by simp [hu], Or.inr ⟨uid, docId, rfl, rfl, hnan, hpos, hnew, ?_, ?_, ?_⟩⟩ <;>
              simp [hm]

/-- Either `deleteShoe` leaves the list, the index and the collection alone, or the index
held an id for the name and `deleteDoc` succeeded: then the shoes of that name leave the
list, the name leaves the index and the documents with that id leave the collection. -/
theorem deleteShoe_effect (shoeToDelete : String) (res : Except String Unit) (w : World) :
    (deleteShoe shoeToDelete res w).userId = w.userId ∧
    (((deleteShoe shoeToDelete res w).shoes = w.shoes ∧
        (deleteShoe shoeToDelete res w).shoeDocs = w.shoeDocs ∧
        (deleteShoe shoeToDelete res w).shoesColl = w.shoesColl) ∨
      ∃ m docId, w.shoeDocs = some m ∧ mapGet m shoeToDelete = some docId ∧
        (deleteShoe shoeToDelete res w).shoes =
          w.shoes.filter (fun item => item.name ≠ shoeToDelete) ∧
        (deleteShoe shoeToDelete res w).shoeDocs = some (mapDelete m shoeToDelete) ∧
        (deleteShoe shoeToDelete res w).shoesColl =
          w.shoesColl.filter (fun d => d.id ≠ docId)) := by
  cases res with
  | error e =>
    rcases deleteShoe_error_cases w shoeToDelete e with h | ⟨c, t, h⟩ <;> rw [h] <;> simp
  | ok u =>
    cases hu : w.userId with
    | none =>
      have : deleteShoe shoeToDelete (.ok u) w = w := by unfold deleteShoe; simp only [hu]
      rw [this]; simp [hu]
    | some uid =>
      cases hm : w.shoeDocs with
      | none =>
        have : deleteShoe shoeToDelete (.ok u) w = w := by unfold deleteShoe; simp only [hu, hm]
        rw [this]; simp [hu, hm]
      | some m =>
        by_cases hh : mapHas m shoeToDelete = true
        · cases hg : mapGet m shoeToDelete with
          | none => simp [mapHas, hg] at hh
          | some docId =>
            have : deleteShoe shoeToDelete (.ok u) w =
                { w with
                  calls := w.calls ++ [Call.deleteDoc "shoes" docId]
                  shoesColl := w.shoesColl.filter (fun d => d.id ≠ docId)
                  shoes := w.shoes.filter (fun item => item.name ≠ shoeToDelete)
                  shoeDocs := some (mapDelete m shoeToDelete)
                  error := "" } := by
              unfold deleteShoe; simp only [hu, hm, hh, hg, if_true]
            rw [this]
            exact ⟨by simp [hu], Or.inr ⟨m, docId, rfl, hg, rfl, rfl, rfl⟩⟩
        · have : deleteShoe shoeToDelete (.ok u) w = w := by
            unfold deleteShoe; simp only [hu, hm, hh, if_false, Bool.false_eq_true]
          rw [this]; simp [hu, hm]

/-- The collection after `clearShoes` is the old one without some documents.  Either the
list and the index are left alone, or the query and every delete succeeded: then every
document the query returned is gone, the list is empty and the index, when it exists,
is empty. -/
theorem clearShoes_effect (res : Except String (List ShoeDoc))
    (deleteRes : String → Except String Unit) (w : World) :
    (clearShoes res deleteRes w).userId = w.userId ∧
    ∃ keep : ShoeDoc → Bool,
      (clearShoes res deleteRes w).shoesColl = w.shoesColl.filter keep ∧
      (((clearShoes res deleteRes w).shoes = w.shoes ∧
          (clearShoes res deleteRes w).shoeDocs = w.shoeDocs) ∨
        ∃ uid docs, w.userId = some uid ∧ res = .ok docs ∧
          (∀ d ∈ docs, ∀ d', d'.id = d.id → keep d' = false) ∧
          (clearShoes res deleteRes w).shoes = [] ∧
          (clearShoes res deleteRes w).shoeDocs = w.shoeDocs.map (fun _ => [])) := by
  cases hu : w.userId with
  | none =>
    have : clearShoes res deleteRes w = w := by unfold clearShoes; simp only [hu]
    rw [this]
    exact ⟨hu, fun _ => true, by simp, Or.inl ⟨rfl, rfl⟩⟩
  | some uid =>
    cases res with
    | error e =>
      have : clearShoes (.error e) deleteRes w =
          { w with
            calls := w.calls ++ [Call.getDocs "shoes" uid]
            console := w.console ++ [LogEntry.error "Error clearing shoes:" (.rejected e)]
            error := "Failed to clear shoes." } := by
        unfold clearShoes; simp only [hu]
      rw [this]
      exact ⟨hu, fun _ => true, by simp, Or.inl ⟨rfl, rfl⟩⟩
    | ok docs =>
      cases hE : docs.filterMap (fun (d : ShoeDoc) => match deleteRes d.id with
                                                     | .error e => some e
                                                     | .ok _ => none) with
      | cons e es =>
        have : clearShoes (.ok docs) deleteRes w =
            { w with
              calls := w.calls ++ [Call.getDocs "shoes" uid] ++
                docs.map (fun (d : ShoeDoc) => Call.deleteDoc "shoes" d.id)
              shoesColl := w.shoesColl.filter (fun d =>
                !(docs.any (fun (d' : ShoeDoc) => d'.id = d.id) && (deleteRes d.id).toBool))
              console := w.console ++ [LogEntry.error "Error clearing shoes:" (.rejected e)]
              error := "Failed to clear shoes." } := by
          unfold clearShoes; simp only [hu, hE]
        rw [this]
        exact ⟨hu, _, rfl, Or.inl ⟨rfl, rfl⟩⟩
      | nil =>
        have hall : ∀ d ∈ docs, (deleteRes d.id).toBool = true := by
          intro d hd
          have := (List.filterMap_eq_nil_iff.mp hE) d hd
          cases h : deleteRes d.id with
          | error e => simp [h] at this
          | ok u => rfl
        have hkeep : ∀ d ∈ docs, ∀ d' : ShoeDoc, d'.id = d.id →
            (!(docs.any (fun (x : ShoeDoc) => x.id = d'.id) && (deleteRes d'.id).toBool)) = false := by
          intro d hd d' hid
          have h1 : docs.any (fun (x : ShoeDoc) => x.id = d'.id) = true := by
            rw [List.any_eq_true]
            exact ⟨d, hd, by simp [hid]⟩
          have h2 := hall d hd
          rw [← hid] at h2
          simp [h1, h2]
        cases hm : w.shoeDocs with
        | none =>
          have : clearShoes (.ok docs) deleteRes w =
              { w with
                calls := w.calls ++ [Call.getDocs "shoes" uid] ++
                  docs.map (fun (d : ShoeDoc) => Call.deleteDoc "shoes" d.id)
                shoesColl := w.shoesColl.filter (fun d =>
                  !(docs.any (fun (d' : ShoeDoc) => d'.id = d.id) && (deleteRes d.id).toBool))
                shoes := []
                console := w.console ++ [LogEntry.error "Error clearing shoes:" .typeError]
                error := "Failed to clear shoes." } := by
            unfold clearShoes; simp only [hu, hE, hm]
          rw [this]
          exact ⟨hu, _, rfl, Or.inr ⟨uid, docs, rfl, rfl, hkeep, rfl, by simp [hm]⟩⟩
        | some m =>
          have : clearShoes (.ok docs) deleteRes w =
              { w with
                calls := w.calls ++ [Call.getDocs "shoes" uid] ++
                  docs.map (fun (d : ShoeDoc) => Call.deleteDoc "shoes" d.id)
                shoesColl := w.shoesColl.filter (fun d =>
                  !(docs.any (fun (d' : ShoeDoc) => d'.id = d.id) && (deleteRes d.id).toBool))
                shoes := []
                shoeDocs := some []
                error := "" } := by
            unfold clearShoes; simp only [hu, hE, hm]
          rw [this]
          exact ⟨hu, _, rfl, Or.inr ⟨uid, docs, rfl, rfl, hkeep, rfl, by simp [hm]⟩⟩

/-- A failed `loadShoes` leaves the list, the index and the collection alone; no call of
`loadShoes` changes the collection or the signed-in user. -/
theorem loadShoes_effect (uid : String) (res : Except String (List ShoeDoc)) (w : World) :
    (loadShoes uid res w).userId = w.userId ∧
    (loadShoes uid res w).shoesColl = w.shoesColl ∧
    (∀ e, res = .error e →
      (loadShoes uid res w).shoes = w.shoes ∧ (loadShoes uid res w).shoeDocs = w.shoeDocs) := by
  cases res with
  | error e => simp [loadShoes]
  | ok docs => simp [loadShoes]

/-! ## The index and the list: kept in lockstep by every handler, not by a remount -/

/-- A successful `loadShoes` builds a list and an index that are in lockstep. -/
theorem lockstep_loadShoes_ok (uid : String) (docs : List ShoeDoc) (w : World) :
    Lockstep (loadShoes uid (.ok docs) w) := by
  refine ⟨_, loadShoes_ok_shoeDocs uid docs w, fun n => ?_⟩
  rw [loadShoes_ok_shoes, mapHas_foldl_mapSet, itemsOf]
  constructor
  · rintro (h | ⟨d, hd, rfl⟩)
    · simp [mapHas, mapGet] at h
    · exact ⟨toShoe d, List.mem_map_of_mem _ hd, rfl⟩
  · rintro ⟨shoe, hshoe, rfl⟩
    obtain ⟨d, hd, rfl⟩ := List.mem_map.mp hshoe
    exact Or.inr ⟨d, hd, rfl⟩

/-- A call of `addShoe` that runs to its end on a state in lockstep leaves it in lockstep. -/
theorem lockstep_addShoe {w : World} (hinv : Lockstep w) (now : Int)
    (res : Except String String) : Lockstep (addShoe now res w) := by
  obtain ⟨m, hm, hkeys⟩ := hinv
  obtain ⟨-, h⟩ := addShoe_effect now res w
  rcases h with ⟨h1, h2, -⟩ | ⟨uid, docId, -, -, -, -, -, h1, h2, -⟩
  · exact ⟨m, by rw [h2]; exact hm, by rw [h1]; exact hkeys⟩
  · refine ⟨mapSet m (jsTrim w.shoeName) docId, by rw [h2]; simp [hm], fun n => ?_⟩
    rw [h1, mapHas_mapSet, hkeys n]
    simp only [List.mem_append, List.mem_singleton]
    constructor
    · rintro (h | ⟨shoe, hmem, heq⟩)
      · exact ⟨_, Or.inr rfl, h⟩
      · exact ⟨shoe, Or.inl hmem, heq⟩
    · rintro ⟨shoe, hmem | rfl, heq⟩
      · exact Or.inr ⟨shoe, hmem, heq⟩
      · exact Or.inl heq

/-- A call of `deleteShoe` on a state in lockstep leaves it in lockstep. -/
theorem lockstep_deleteShoe {w : World} (hinv : Lockstep w) (shoeToDelete : String)
    (res : Except String Unit) : Lockstep (deleteShoe shoeToDelete res w) := by
  obtain ⟨m, hm, hkeys⟩ := hinv
  obtain ⟨-, h⟩ := deleteShoe_effect shoeToDelete res w
  rcases h with ⟨h1, h2, -⟩ | ⟨m0, docId, hm0, -, h1, h2, -⟩
  · exact ⟨m, by rw [h2]; exact hm, by rw [h1]; exact hkeys⟩
  · have hmm : m0 = m := by rw [hm] at hm0; exact (Option.some.inj hm0).symm
    subst hmm
    refine ⟨mapDelete m0 shoeToDelete, h2, fun n => ?_⟩
    rw [h1, mapHas_mapDelete, hkeys n]
    constructor
    · rintro ⟨hne, shoe, hmem, heq⟩
      exact ⟨shoe, List.mem_filter.mpr ⟨hmem, by simpa [heq] using fun h => hne h.symm⟩, heq⟩
    · rintro ⟨shoe, hmem, heq⟩
      obtain ⟨hmem', hp⟩ := List.mem_filter.mp hmem
      refine ⟨?_, shoe, hmem', heq⟩
      intro h
      simp [heq, h] at hp

/-- A call of `clearShoes` on a state in lockstep leaves it in lockstep. -/
theorem lockstep_clearShoes {w : World} (hinv : Lockstep w)
    (res : Except String (List ShoeDoc)) (deleteRes : String → Except String Unit) :
    Lockstep (clearShoes res deleteRes w) := by
  obtain ⟨m, hm, hkeys⟩ := hinv
  obtain ⟨-, keep, -, h⟩ := clearShoes_effect res deleteRes w
  rcases h with ⟨h1, h2⟩ | ⟨uid, docs, -, -, -, h1, h2⟩
  · exact ⟨m, by rw [h2]; exact hm, by rw [h1]; exact hkeys⟩
  · exact ⟨[], by rw [h2]; simp [hm], by rw [h1]; simp [mapHas, mapGet]⟩

/-- A mount whose sign-in succeeds and whose `loadShoes` query rejects: the list is the
empty list of the new mount, the index is still the one of the previous mount. -/
theorem mount_load_rejected (env : DateEnv) (uid e : String)
    (viewsRes : Except String (List ViewDoc)) (w : World) :
    (mount env (.ok uid) (.error e) viewsRes w).shoes = [] ∧
    (mount env (.ok uid) (.error e) viewsRes w).shoeDocs = w.shoeDocs ∧
    (mount env (.ok uid) (.error e) viewsRes w).shoesColl = w.shoesColl := by
  cases viewsRes <;> simp [mount, loadShoes, loadPastViews]

/-- C4, on the code. The first mount loads an empty collection: empty list, empty index.
"Air Max" is added: list and index both hold it.  The component mounts again and the
query of `loadShoes` rejects: the list is empty, yet "Air Max" is still a key of
`window.shoeDocs`, so the index and the list are no longer in lockstep. -/
theorem remount_load_rejected_breaks_lockstep :
    (firstMount.shoes = [] ∧ firstMount.shoeDocs = some []) ∧
    (airMaxAdded.shoes = [⟨"Air Max", parseFloat (.str "120")⟩] ∧
      airMaxAdded.shoeDocs = some [("Air Max", "d1")]) ∧
    (remountLoadRejected.error = "Failed to load shoes." ∧
      remountLoadRejected.shoes = [] ∧
      remountLoadRejected.shoeDocs = some [("Air Max", "d1")]) ∧
    ¬ Lockstep remountLoadRejected := by
  refine ⟨by decide, by decide, by decide, ?_⟩
  rintro ⟨m, hm, hkeys⟩
  have hidx : remountLoadRejected.shoeDocs = some [("Air Max", "d1")] := by decide
  have hlist : remountLoadRejected.shoes = [] := by decide
  rw [hidx] at hm
  have hkey : mapHas m "Air Max" = true := by
    rw [← Option.some.inj hm]; decide
  obtain ⟨shoe, hmem, -⟩ := (hkeys "Air Max").mp hkey
  rw [hlist] at hmem
  exact List.not_mem_nil _ hmem

/-! ## Names: kept unique by every handler while the list mirrors the collection -/

theorem isNaN_parseFloat_num (p : JSNumber) : isNaN (parseFloat (.num p)) = isNaN p := by
  cases p with
  | nan => rfl
  | inf neg => rfl
  | fin neg mant e => cases mant <;> rfl

theorem parseFloat_num_of_pos (p : JSNumber) (hpos : leZero p = false) :
    parseFloat (.num p) = p := by
  cases p with
  | nan => rfl
  | inf neg => rfl
  | fin neg mant e =>
    cases mant with
    | zero => simp [leZero] at hpos
    | succ k => rfl

theorem mapGet_foldl_mapSet_of_not_mem (docs : List ShoeDoc) (m : JSMap) (n : String)
    (hn : n ∉ docs.map ShoeDoc.shoeName) :
    mapGet (docs.foldl (fun m d => mapSet m d.shoeName d.id) m) n = mapGet m n := by
  induction docs generalizing m with
  | nil => rfl
  | cons d rest ih =>
    simp only [List.map_cons, List.mem_cons, not_or] at hn
    rw [List.foldl_cons, ih _ hn.2, mapGet_mapSet, if_neg (fun h => hn.1 h.symm)]

theorem mapGet_foldl_mapSet_of_nodup (docs : List ShoeDoc) (m : JSMap)
    (hnodup : (docs.map ShoeDoc.shoeName).Nodup) (d : ShoeDoc) (hd : d ∈ docs) :
    mapGet (docs.foldl (fun m d => mapSet m d.shoeName d.id) m) d.shoeName = some d.id := by
  induction docs generalizing m with
  | nil => simp at hd
  | cons x rest ih =>
    rw [List.map_cons, List.nodup_cons] at hnodup
    rw [List.foldl_cons]
    rcases List.mem_cons.mp hd with rfl | hmem
    · rw [mapGet_foldl_mapSet_of_not_mem _ _ _ hnodup.1, mapGet_mapSet, if_pos rfl]
    · exact ih _ hnodup.2 hmem

theorem NamesInv.of_eq {w w' : World} (h : NamesInv w) (hs : w'.shoes = w.shoes)
    (hd : w'.shoeDocs = w.shoeDocs) (hc : w'.shoesColl = w.shoesColl)
    (hu : w'.userId = w.userId) : NamesInv w' := by
  constructor
  · rw [hs]; exact h.shoes_nodup
  · rw [hc]; exact h.docs_nodup
  · rw [hc, hu]; exact h.docs_owned
  · rw [hc]; exact h.docs_numeric
  · rw [hc, hs]; exact h.docs_listed
  · rw [hc, hd]; exact h.index_ids

/-- Under the invariant the query of the signed-in user matches the whole collection. -/
theorem userDocs_eq_of_inv {w : World} (h : NamesInv w) (uid : String)
    (huser : w.userId = some uid) : userDocs uid w = w.shoesColl := by
  unfold userDocs
  rw [List.filter_eq_self]
  intro d hd
  have := h.docs_owned d hd
  rw [huser] at this
  simpa using Option.some.inj this

theorem itemsOf_of_numeric (docs : List ShoeDoc) (h : ∀ d ∈ docs, numericPrice d = true) :
    itemsOf docs = docs.map toShoe := by
  unfold itemsOf
  rw [List.filter_eq_self.mpr h]

theorem namesInv_load {w : World} (h : NamesInv w) (uid : String) (docs : List ShoeDoc)
    (huser : w.userId = some uid) (hperm : docs.Perm (userDocs uid w)) :
    NamesInv (loadShoes uid (.ok docs) w) := by
  rw [userDocs_eq_of_inv h uid huser] at hperm
  have hnum : ∀ d ∈ docs, numericPrice d = true :=
    fun d hd => h.docs_numeric d (hperm.mem_iff.mp hd)
  obtain ⟨hu, hc, -⟩ := loadShoes_effect uid (.ok docs) w
  have hs : (loadShoes uid (.ok docs) w).shoes = docs.map toShoe := by
    rw [loadShoes_ok_shoes, itemsOf_of_numeric docs hnum]
  have hnames : (docs.map toShoe).map Shoe.name = docs.map ShoeDoc.shoeName := by
    rw [List.map_map]; rfl
  have hdn : (docs.map ShoeDoc.shoeName).Nodup :=
    (hperm.map ShoeDoc.shoeName).nodup_iff.mpr h.docs_nodup
  constructor
  · rw [hs, hnames]; exact hdn
  · rw [hc]; exact h.docs_nodup
  · rw [hc, hu]; exact h.docs_owned
  · rw [hc]; exact h.docs_numeric
  · rw [hc, hs, hnames]
    intro d hd
    exact List.mem_map_of_mem _ (hperm.mem_iff.mpr hd)
  · intro m hm d hd
    rw [loadShoes_ok_shoeDocs, List.filter_eq_self.mpr hnum] at hm
    rw [hc] at hd
    rw [← Option.some.inj hm]
    exact mapGet_foldl_mapSet_of_nodup docs [] hdn d (hperm.mem_iff.mpr hd)

theorem namesInv_add {w : World} (h : NamesInv w) (now : Int) (res : Except String String) :
    NamesInv (addShoe now res w) := by
  obtain ⟨hu, heff⟩ := addShoe_effect now res w
  rcases heff with ⟨hs, hd, hc⟩ | ⟨uid, docId, huser, -, hnan, hpos, hnew, hs, hd, hc⟩
  · exact h.of_eq hs hd hc hu
  · have hfresh : jsTrim w.shoeName ∉ w.shoes.map Shoe.name := by
      intro hmem
      obtain ⟨shoe, hshoe, heq⟩ := List.mem_map.mp hmem
      exact hnew shoe hshoe heq
    have hfresh' : jsTrim w.shoeName ∉ w.shoesColl.map ShoeDoc.shoeName := by
      intro hmem
      obtain ⟨d, hdmem, heq⟩ := List.mem_map.mp hmem
      exact hfresh (heq ▸ h.docs_listed d hdmem)
    constructor
    · rw [hs, List.map_append, List.map_singleton]
      exact List.Nodup.append h.shoes_nodup (List.nodup_singleton _)
        (by simpa [List.Disjoint] using hfresh)
    · rw [hc, List.map_append, List.map_singleton]
      exact List.Nodup.append h.docs_nodup (List.nodup_singleton _)
        (by simpa [List.Disjoint] using hfresh')
    · rw [hc, hu]
      intro d hdmem
      rcases List.mem_append.mp hdmem with hold | hnewdoc
      · exact h.docs_owned d hold
      · rw [List.mem_singleton.mp hnewdoc]; exact huser.symm
    · rw [hc]
      intro d hdmem
      rcases List.mem_append.mp hdmem with hold | hnewdoc
      · exact h.docs_numeric d hold
      · rw [List.mem_singleton.mp hnewdoc]
        simp [numericPrice, isNaN_parseFloat_num, hnan]
    · rw [hc, hs, List.map_append]
      intro d hdmem
      rcases List.mem_append.mp hdmem with hold | hnewdoc
      · exact List.mem_append.mpr (Or.inl (h.docs_listed d hold))
      · rw [List.mem_singleton.mp hnewdoc]
        exact List.mem_append.mpr (Or.inr (by simp))
    · intro m' hm' d hdmem
      rw [hd] at hm'
      cases hm : w.shoeDocs with
      | none => simp [hm] at hm'
      | some m =>
        rw [hm] at hm'
        simp only [Option.map_some'] at hm'
        rw [← Option.some.inj hm', mapGet_mapSet]
        rw [hc] at hdmem
        rcases List.mem_append.mp hdmem with hold | hnewdoc
        · have hne : ¬ jsTrim w.shoeName = d.shoeName := by
            intro heq
            exact hfresh' (heq ▸ List.mem_map_of_mem _ hold)
          rw [if_neg hne]
          exact h.index_ids m hm d hold
        · rw [List.mem_singleton.mp hnewdoc]
          simp

theorem namesInv_delete {w : World} (h : NamesInv w) (shoeToDelete : String)
    (res : Except String Unit) : NamesInv (deleteShoe shoeToDelete res w) := by
  obtain ⟨hu, heff⟩ := deleteShoe_effect shoeToDelete res w
  rcases heff with ⟨hs, hd, hc⟩ | ⟨m, docId, hm, hget, hs, hd, hc⟩
  · exact h.of_eq hs hd hc hu
  · have hkept : ∀ d ∈ w.shoesColl.filter (fun d => d.id ≠ docId),
        d ∈ w.shoesColl ∧ d.shoeName ≠ shoeToDelete := by
      intro d hdmem
      obtain ⟨hmem, hid⟩ := List.mem_filter.mp hdmem
      refine ⟨hmem, fun heq => ?_⟩
      have := h.index_ids m hm d hmem
      rw [heq, hget] at this
      simp [Option.some.inj this] at hid
    constructor
    · rw [hs]
      exact h.shoes_nodup.sublist ((List.filter_sublist _).map _)
    · rw [hc]
      exact h.docs_nodup.sublist ((List.filter_sublist _).map _)
    · rw [hc, hu]
      exact fun d hdmem => h.docs_owned d (hkept d hdmem).1
    · rw [hc]
      exact fun d hdmem => h.docs_numeric d (hkept d hdmem).1
    · rw [hc, hs]
      intro d hdmem
      obtain ⟨hmem, hne⟩ := hkept d hdmem
      obtain ⟨shoe, hshoe, heq⟩ := List.mem_map.mp (h.docs_listed d hmem)
      refine List.mem_map.mpr ⟨shoe, List.mem_filter.mpr ⟨hshoe, ?_⟩, heq⟩
      simpa [heq] using hne
    · intro m' hm' d hdmem
      rw [hd] at hm'
      rw [hc] at hdmem
      obtain ⟨hmem, hne⟩ := hkept d hdmem
      rw [← Option.some.inj hm', mapGet_mapDelete, if_neg (fun heq => hne heq.symm)]
      exact h.index_ids m hm d hmem

theorem namesInv_clear {w : World} (h : NamesInv w) (res : Except String (List ShoeDoc))
    (deleteRes : String → Except String Unit)
    (hres : ∀ uid docs, w.userId = some uid → res = .ok docs → docs.Perm (userDocs uid w)) :
    NamesInv (clearShoes res deleteRes w) := by
  obtain ⟨hu, keep, hc, heff⟩ := clearShoes_effect res deleteRes w
  rcases heff with ⟨hs, hd⟩ | ⟨uid, docs, huser, hok, hkeep, hs, hd⟩
  · have hmem : ∀ d ∈ w.shoesColl.filter keep, d ∈ w.shoesColl :=
      fun d hdmem => (List.mem_filter.mp hdmem).1
    constructor
    · rw [hs]; exact h.shoes_nodup
    · rw [hc]
      exact h.docs_nodup.sublist ((List.filter_sublist _).map _)
    · rw [hc, hu]
      exact fun d hdmem => h.docs_owned d (hmem d hdmem)
    · rw [hc]
      exact fun d hdmem => h.docs_numeric d (hmem d hdmem)
    · rw [hc, hs]
      exact fun d hdmem => h.docs_listed d (hmem d hdmem)
    · rw [hc, hd]
      exact fun m hm d hdmem => h.index_ids m hm d (hmem d hdmem)
  · have hperm := hres uid docs huser hok
    rw [userDocs_eq_of_inv h uid huser] at hperm
    have hempty : w.shoesColl.filter keep = [] := by
      rw [List.filter_eq_nil_iff]
      intro d hdmem
      simp [hkeep d (hperm.mem_iff.mpr hdmem) d rfl]
    rw [hempty] at hc
    constructor
    · rw [hs]; simp
    · rw [hc]; simp
    · rw [hc]; simp
    · rw [hc]; simp
    · rw [hc]; simp
    · rw [hc]; simp

/-- C5, on the code. From an empty list and an empty collection: "Air Max" is added
(document `d1`), the component mounts again and the query of `loadShoes` rejects, so
the list is empty while the collection holds `d1`; "Air Max" is entered again, passes
the test against the list, and `addDoc` writes `d2`.  User `u1` now has two documents
named "Air Max", and after the next mount, whose query succeeds, so has the list. -/
theorem add_after_rejected_load_duplicates_name :
    (World.initial.shoes = [] ∧ World.initial.shoesColl = []) ∧
    (remountLoadRejected.shoes = [] ∧
      (userDocs "u1" remountLoadRejected).map ShoeDoc.shoeName = ["Air Max"]) ∧
    (airMaxAddedAgain.error = "" ∧
      (userDocs "u1" airMaxAddedAgain).map (fun d => (d.id, d.shoeName)) =
        [("d1", "Air Max"), ("d2", "Air Max")] ∧
      ¬ ((userDocs "u1" airMaxAddedAgain).map ShoeDoc.shoeName).Nodup) ∧
    (remountLoaded.shoes =
        [⟨"Air Max", parseFloat (.str "120")⟩, ⟨"Air Max", parseFloat (.str "120")⟩] ∧
      ¬ (remountLoaded.shoes.map Shoe.name).Nodup) := by
  decide

/-! ## Round trip -/

/-- The document that a successful `addShoe` appends to the collection. -/
theorem addShoe_ok_shoesColl (w : World) (uid docId : String) (now : Int)
    (huser : w.userId = some uid)
    (hname : jsTrim w.shoeName ≠ "")
    (hnan : isNaN (parseFloat (.str w.shoePrice)) = false)
    (hpos : leZero (parseFloat (.str w.shoePrice)) = false)
    (hnew : ∀ shoe ∈ w.shoes, shoe.name ≠ jsTrim w.shoeName) :
    (addShoe now (.ok docId) w).shoesColl =
      w.shoesColl ++ [⟨docId, uid, jsTrim w.shoeName, .num (parseFloat (.str w.shoePrice)),
        Timestamp.fromMillis now⟩] := by
  have hany : ¬ (w.shoes.any (fun shoe => shoe.name = jsTrim w.shoeName) = true) := by
    rw [any_name_iff]
    rintro ⟨shoe, hmem, heq⟩
    exact hnew shoe hmem heq
  unfold addShoe
  simp only [hname, hnan, hpos, hany, huser, false_or, Bool.false_eq_true, if_false]
  cases w.shoeDocs <;> rfl

theorem itemsOf_perm {docs docs' : List ShoeDoc} (h : docs.Perm docs') :
    (itemsOf docs).Perm (itemsOf docs') :=
  (h.filter numericPrice).map toShoe

/-- C6. From a state whose list agrees with the user's documents in the collection, for
an input name that is non-empty after trimming and not yet in the list and a price
that parses to a number above zero: once `addShoe` has had its `addDoc` succeed and
`loadShoes` has had its query succeed, the list holds the shoe with the trimmed name
and the parsed price exactly once. -/
theorem add_then_load_round_trip (w : World) (uid docId : String) (now : Int)
    (docs : List ShoeDoc)
    (huser : w.userId = some uid)
    (hname : jsTrim w.shoeName ≠ "")
    (hnan : isNaN (parseFloat (.str w.shoePrice)) = false)
    (hpos : leZero (parseFloat (.str w.shoePrice)) = false)
    (hnew : ∀ shoe ∈ w.shoes, shoe.name ≠ jsTrim w.shoeName)
    (hagree : w.shoes.Perm (itemsOf (userDocs uid w)))
    (hdocs : docs.Perm (userDocs uid (addShoe now (.ok docId) w))) :
    (loadShoes uid (.ok docs) (addShoe now (.ok docId) w)).shoes.count
      ⟨jsTrim w.shoeName, parseFloat (.str w.shoePrice)⟩ = 1 := by
  have hcoll := addShoe_ok_shoesColl w uid docId now huser hname hnan hpos hnew
  have huserDocs : userDocs uid (addShoe now (.ok docId) w) =
      userDocs uid w ++ [⟨docId, uid, jsTrim w.shoeName, .num (parseFloat (.str w.shoePrice)),
        Timestamp.fromMillis now⟩] := by
    unfold userDocs
    rw [hcoll, List.filter_append]
    simp
  have hitems : itemsOf (userDocs uid (addShoe now (.ok docId) w)) =
      itemsOf (userDocs uid w) ++ [⟨jsTrim w.shoeName, parseFloat (.str w.shoePrice)⟩] := by
    rw [huserDocs]
    unfold itemsOf
    rw [List.filter_append, List.map_append]
    simp [numericPrice, isNaN_parseFloat_num, hnan, toShoe, parseFloat_num_of_pos _ hpos]
  have hold : w.shoes.count ⟨jsTrim w.shoeName, parseFloat (.str w.shoePrice)⟩ = 0 := by
    rw [List.count_eq_zero]
    intro hmem
    exact hnew _ hmem rfl
  rw [loadShoes_ok_shoes, (itemsOf_perm hdocs).count_eq, hitems, List.count_append,
    ← hagree.count_eq, hold]
  simp

/-- Witness for C6: "Air Max" at 120.00, added to the list `[Clog]` that agrees with the
collection. -/
theorem add_then_load_round_trip_witness :
    (loadShoes "u1"
        (.ok [⟨"d2", "u1", "Air Max", .num (parseFloat (.str "120.00")), ⟨0, 7000000⟩⟩,
              ⟨"d1", "u1", "Clog", .str "45.5", ⟨0, 0⟩⟩])
        (addShoe 7 (.ok "d2")
          { World.initial with
            shoeName := "Air Max", shoePrice := "120.00", userId := some "u1",
            shoes := [⟨"Clog", parseFloat (.str "45.5")⟩],
            shoeDocs := some [("Clog", "d1")],
            shoesColl := [⟨"d1", "u1", "Clog", .str "45.5", ⟨0, 0⟩⟩] })).shoes.count
      ⟨"Air Max", parseFloat (.str "120.00")⟩ = 1 :=
  add_then_load_round_trip
    { World.initial with
      shoeName := "Air Max", shoePrice := "120.00", userId := some "u1",
      shoes := [⟨"Clog", parseFloat (.str "45.5")⟩],
      shoeDocs := some [("Clog", "d1")],
      shoesColl := [⟨"d1", "u1", "Clog", .str "45.5", ⟨0, 0⟩⟩] }
    "u1" "d2" 7 _ rfl (by decide) (by decide) (by decide) (by decide)
    (by decide) (by decide)

end ShoeStore
